import Mathlib

/-!
Shallow embedding of the Screen Coordinate Tool's capture overlay
(`src/main.py`): the captured-item model, the geometry helpers, the
hit tester, the notification queue and the overlay state machine, with
theorems settling the specification's claims about them.

Machine reals (Python floats) are modelled by rationals; the single
irrational operation, `math.sqrt`, is passed around as an explicit
function parameter `s : ℚ → ℚ` applied to exactly-represented squared
distances, and the theorems assume of `s` only facts that the real
square root (and IEEE-754 `sqrt` on these exactly representable inputs)
satisfies.
-/

/-- A screen point with integer pixel coordinates (Qt `QPoint`). -/
structure Pt where
  x : ℤ
  y : ℤ
deriving DecidableEq, Repr

/-- Python `int()` applied to a float value: truncation toward zero. -/
def pyInt (q : ℚ) : ℤ :=
  q.num.tdiv q.den

/-- Python 3 `round()` to an integer: round half to even. `f` is the
floor of `q` and `r` its remainder numerator, so the fractional part of
`q` is `r / den` and comparing it with `1/2` is comparing `2*r` with
`den`. -/
def pyRound (q : ℚ) : ℤ :=
  let f := q.num.ediv q.den
  let r := q.num - f * q.den
  if 2 * r < q.den then f
  else if (q.den : ℤ) < 2 * r then f + 1
  else if f % 2 = 0 then f else f + 1

/-- `CoordinateItem` from `main.py` (the mutable-name record). -/
structure CoordinateItem where
  x : ℤ
  y : ℤ
  name : String
  timestamp : String
deriving DecidableEq, Repr

/-- `CoordinateItem.__init__`: `self.name = name or f"Point (x, y)"`,
an empty (falsy) `name` argument selects the default. -/
def CoordinateItem.make (x y : ℤ) (name : String) (ts : String) : CoordinateItem :=
  { x := x, y := y,
    name := if name = "" then "Point (" ++ toString x ++ ", " ++ toString y ++ ")" else name,
    timestamp := ts }

/-- `MeasurementItem` from `main.py`. -/
structure MeasurementItem where
  x1 : ℤ
  y1 : ℤ
  x2 : ℤ
  y2 : ℤ
  distance : ℚ
  name : String
  timestamp : String
  auto_aligned : Bool
deriving DecidableEq, Repr

/-- `MeasurementItem.__init__`: `self.name = name or f"Measurement c!px"`
where `c = int(distance)` (Python `int`, truncation toward zero); an
empty (falsy) `name` argument selects the default. -/
def MeasurementItem.make (x1 y1 x2 y2 : ℤ) (distance : ℚ) (name : String)
    (ts : String) (auto_aligned : Bool) : MeasurementItem :=
  { x1 := x1, y1 := y1, x2 := x2, y2 := y2, distance := distance,
    name := if name = "" then "Measurement " ++ toString (pyInt distance) ++ "px" else name,
    timestamp := ts, auto_aligned := auto_aligned }

/-- The default measurement name as the specification words it:
`"Measurement r!px"` with `r = round(distance)`. -/
def specMeasurementName (distance : ℚ) : String :=
  "Measurement " ++ toString (pyRound distance) ++ "px"

/-- Squared Euclidean distance between two points; `math.sqrt` of this
value is the `distance(p, q)` the overlay computes. -/
def dist2 (p q : Pt) : ℤ :=
  (p.x - q.x) ^ 2 + (p.y - q.y) ^ 2

/-- The axis-snap step of `finish_ruler` / `draw_ruler`:
`dx = abs(end.x - start.x)`, `dy = abs(end.y - start.y)`;
`if dx > dy * 10:` force horizontal, `elif dy > dx * 10:` force
vertical, else leave the endpoint unchanged; a true `freeform`
(Shift held) skips snapping entirely. -/
def snapAxis (start endp : Pt) (freeform : Bool) : Pt :=
  if freeform then endp
  else
    let dx := |endp.x - start.x|
    let dy := |endp.y - start.y|
    if dx > dy * 10 then { x := endp.x, y := start.y }
    else if dy > dx * 10 then { x := start.x, y := endp.y }
    else endp

/-- The snap rule as the specification words it: if `freeform` return
`end` unchanged; else with `dx = |end.x - start.x|`, `dy = |end.y - start.y|`,
if `dx > 10*dy` return `(end.x, start.y)`, else if `dy > 10*dx` return
`(start.x, end.y)`, else return `end` unchanged. -/
def snapAxisSpec (start endp : Pt) (freeform : Bool) : Pt :=
  if freeform then endp
  else
    let dx := |endp.x - start.x|
    let dy := |endp.y - start.y|
    if dx > 10 * dy then { x := endp.x, y := start.y }
    else if dy > 10 * dx then { x := start.x, y := endp.y }
    else endp

/-- `l2` in `select_nearest_item`: squared length of the segment
`(x1,y1)-(x2,y2)`, computed as `(x1 - x2)**2 + (y1 - y2)**2`. -/
def segL2 (a b : Pt) : ℤ :=
  (a.x - b.x) ^ 2 + (a.y - b.y) ^ 2

/-- The raw projection parameter `t` of `select_nearest_item`:
`((px - x1)*(x2 - x1) + (py - y1)*(y2 - y1)) / l2` (float division in
the source; exact rational division here, and `0` on the degenerate
`l2 = 0` case that the source guards before dividing). -/
def segT (p a b : Pt) : ℚ :=
  (((p.x - a.x) * (b.x - a.x) + (p.y - a.y) * (b.y - a.y) : ℤ) : ℚ) / ((segL2 a b : ℤ) : ℚ)

/-- Squared point-to-segment distance from `select_nearest_item`: if
`l2 == 0` the squared distance to the first endpoint, else the squared
distance from `p` to the projection at `t` clamped by
`max(0, min(1, t))`. `math.sqrt` of this value is the `d` the source
computes for a `MeasurementItem`. -/
def segDist2 (p a b : Pt) : ℚ :=
  if segL2 a b = 0 then ((dist2 p a : ℤ) : ℚ)
  else
    let t := max 0 (min 1 (segT p a b))
    let projx := ((a.x : ℚ)) + t * ((b.x : ℚ) - (a.x : ℚ))
    let projy := ((a.y : ℚ)) + t * ((b.y : ℚ) - (a.y : ℚ))
    ((p.x : ℚ) - projx) ^ 2 + ((p.y : ℚ) - projy) ^ 2

/-- An entry of the overlay's session item list. Only the two
pointlike kinds are ever appended to `session_items` by the overlay
(the render hint of the stored pair is always `None` and is omitted). -/
inductive SessionItem where
  | coord (c : CoordinateItem)
  | meas (m : MeasurementItem)
deriving DecidableEq, Repr

/-- The per-item distance `d` computed by `select_nearest_item`,
dispatching on the item kind; `s` stands for `math.sqrt`. -/
def itemDist (s : ℚ → ℚ) (pos : Pt) (item : SessionItem) : ℚ :=
  match item with
  | .coord c => s (((dist2 pos { x := c.x, y := c.y } : ℤ) : ℚ))
  | .meas m => s (segDist2 pos { x := m.x1, y := m.y1 } { x := m.x2, y := m.y2 })

/-- The loop of `select_nearest_item`: `i` is the enumeration index,
`minDist` the best distance so far (initially the 20px `limit`),
`closest` the best index so far (initially `-1`); an item wins only
when `d < min_dist`. -/
def selectNearestAux (s : ℚ → ℚ) (pos : Pt) :
    List SessionItem → ℤ → ℚ → ℤ → ℤ
  | [], _, _, closest => closest
  | item :: rest, i, minDist, closest =>
    let d := itemDist s pos item
    if d < minDist then selectNearestAux s pos rest (i + 1) d i
    else selectNearestAux s pos rest (i + 1) minDist closest

/-- `OverlayWindow.select_nearest_item`: scan the whole session item
list with `limit = 20` and `closest_idx = -1`. -/
def selectNearestItem (s : ℚ → ℚ) (pos : Pt) (items : List SessionItem) : ℤ :=
  selectNearestAux s pos items 0 20 (-1)

/-- `OverlayWindow.add_notification`: append `(text, now + 2)` to the
notification queue (expiry two seconds from now). -/
def addNotification (now : ℚ) (text : String) (q : List (String × ℚ)) :
    List (String × ℚ) :=
  q ++ [(text, now + 2)]

/-- The prune performed at the top of `draw_notifications`:
`self.notifications = [n for n in self.notifications if n[1] > now]`. -/
def pruneNotifications (now : ℚ) (q : List (String × ℚ)) : List (String × ℚ) :=
  q.filter (fun n => decide (now < n.2))

/-- The overlay's `capture_mode`: `"normal"`, `"ruler"` or `"edit"`. -/
inductive Mode where
  | normal
  | ruler
  | edit
deriving DecidableEq, Repr

/-- The full mutable state of `OverlayWindow` that the input handlers
touch. `closed` records that `self.close()` ran (Escape/Q from normal
mode); the widget receives no further events afterwards. -/
structure OverlayState where
  cursor_pos : Pt
  corner_pos : ℕ
  capture_mode : Mode
  ruler_start : Option Pt
  shift_pressed : Bool
  show_help : Bool
  notifications : List (String × ℚ)
  session_items : List SessionItem
  selected_item_index : ℤ
  closed : Bool
deriving DecidableEq, Repr

/-- `OverlayWindow.__init__`: cursor `(0,0)`, corner `3` (top-left),
normal mode, no ruler anchor, shift up, help shown, empty queues,
no selection. -/
def initState : OverlayState :=
  { cursor_pos := { x := 0, y := 0 }, corner_pos := 3, capture_mode := .normal,
    ruler_start := none, shift_pressed := false, show_help := true,
    notifications := [], session_items := [], selected_item_index := -1,
    closed := false }

/-- Responses of the environment consumed during one event: the wall
clock (`datetime.now().timestamp()`), the creation timestamp string,
whether `MainWindow.remove_item_by_reference` finds the item, whether
`MainWindow.rename_item_by_reference` finds it, and the rename
prompt's result `(text, ok)`. -/
structure Env where
  now : ℚ
  timestamp : String
  hostRemoveOk : Bool
  hostRenameOk : Bool
  promptOk : Bool
  promptText : String

/-- Mouse buttons distinguished by `mousePressEvent`. -/
inductive MouseButton where
  | left
  | right
  | other
deriving DecidableEq, Repr

/-- Keys distinguished by `keyPressEvent` / `keyReleaseEvent`. -/
inductive Key where
  | shiftKey
  | keyE
  | keyEscape
  | keyQ
  | keySpace
  | keyH
  | keyDelete
  | keyR
  | otherKey
deriving DecidableEq, Repr

/-- Rename one session item's `name` in place (the host's
`rename_item_by_reference` mutates `model_item.name`, and the session
list holds the same object). -/
def renameItem (item : SessionItem) (nm : String) : SessionItem :=
  match item with
  | .coord c => .coord { c with name := nm }
  | .meas m => .meas { m with name := nm }

/-- Apply `renameItem` at position `i` of the session list. -/
def renameAt : List SessionItem → ℕ → String → List SessionItem
  | [], _, _ => []
  | item :: rest, 0, nm => renameItem item nm :: rest
  | item :: rest, n + 1, nm => item :: renameAt rest n nm

/-- `OverlayWindow.delete_current_selection`: ask the host to remove
the selected entity by identity; only on a `True` reply delete the
session entry, clear the selection and push "Item Deleted". -/
def deleteCurrentSelection (env : Env) (st : OverlayState) : OverlayState :=
  if env.hostRemoveOk then
    { st with
      session_items := st.session_items.eraseIdx st.selected_item_index.toNat,
      selected_item_index := -1,
      notifications := addNotification env.now "Item Deleted" st.notifications }
  else st

/-- `OverlayWindow.rename_current_selection`: open the modal prompt;
only when it is confirmed with a nonempty text, ask the host to rename
by identity (return value unchecked) and push "Item Renamed". The
second component records whether the host rename operation was
invoked. -/
def renameCurrentSelection (env : Env) (st : OverlayState) : OverlayState × Bool :=
  if env.promptOk ∧ env.promptText ≠ "" then
    ({ st with
        session_items :=
          if env.hostRenameOk then
            renameAt st.session_items st.selected_item_index.toNat env.promptText
          else st.session_items,
        notifications := addNotification env.now "Item Renamed" st.notifications },
      true)
  else (st, false)

/-- `OverlayWindow.finish_ruler`: no-op without an anchor; otherwise
snap the raw end point (unless Shift is held), measure, create the
`MeasurementItem` (with `auto_aligned = (end != end_pos)`), append it
to the session list, notify, and return to normal mode with the
anchor cleared. `s` stands for `math.sqrt`. -/
def finishRuler (s : ℚ → ℚ) (env : Env) (endPos : Pt) (st : OverlayState) :
    OverlayState :=
  match st.ruler_start with
  | none => st
  | some start =>
    let endp := snapAxis start endPos st.shift_pressed
    let dist := s (((dist2 endp start : ℤ) : ℚ))
    let item := MeasurementItem.make start.x start.y endp.x endp.y dist "" env.timestamp
      (decide (endp ≠ endPos))
    { st with
      session_items := st.session_items ++ [SessionItem.meas item],
      notifications :=
        addNotification env.now ("Measurement: " ++ toString (pyInt dist) ++ "px")
          st.notifications,
      capture_mode := .normal,
      ruler_start := none }

/-- `OverlayWindow.mousePressEvent`: in edit mode a left click runs the
hit tester (everything else is ignored); in normal mode a left click
captures a `CoordinateItem` at `self.cursor_pos` and a right click arms
the ruler at the event position; in ruler mode either button finishes
the ruler at the event position. -/
def mousePressEvent (s : ℚ → ℚ) (env : Env) (btn : MouseButton) (pos : Pt)
    (st : OverlayState) : OverlayState :=
  if st.capture_mode = .edit then
    if btn = .left then
      { st with selected_item_index := selectNearestItem s pos st.session_items }
    else st
  else if btn = .left then
    if st.capture_mode = .normal then
      let item := CoordinateItem.make st.cursor_pos.x st.cursor_pos.y "" env.timestamp
      { st with
        session_items := st.session_items ++ [SessionItem.coord item],
        notifications :=
          addNotification env.now
            ("Captured: " ++ toString st.cursor_pos.x ++ ", " ++ toString st.cursor_pos.y)
            st.notifications }
    else if st.capture_mode = .ruler then finishRuler s env pos st
    else st
  else if btn = .right then
    if st.capture_mode = .normal then
      { st with
        capture_mode := .ruler,
        ruler_start := some pos,
        notifications := addNotification env.now "Ruler Mode: Click to end" st.notifications }
    else if st.capture_mode = .ruler then finishRuler s env pos st
    else st
  else st

/-- The `elif` chain of `OverlayWindow.keyPressEvent` (everything
before the separate edit-mode action block). -/
def keyPressChain (env : Env) (k : Key) (st : OverlayState) :
    OverlayState :=
  if k = .shiftKey then { st with shift_pressed := true }
    else if k = .keyE then
      if st.capture_mode = .edit then
        { st with
          capture_mode := .normal,
          selected_item_index := -1,
          notifications := addNotification env.now "Exited Edit Mode" st.notifications }
      else
        { st with
          capture_mode := .edit,
          ruler_start := none,
          notifications :=
            addNotification env.now "Edit Mode: Click item to select" st.notifications }
    else if k = .keyEscape ∨ k = .keyQ then
      if st.capture_mode = .ruler then
        { st with
          capture_mode := .normal,
          ruler_start := none,
          notifications := addNotification env.now "Ruler Cancelled" st.notifications }
      else if st.capture_mode = .edit then
        { st with capture_mode := .normal, selected_item_index := -1 }
      else { st with closed := true }
    else if k = .keySpace then { st with corner_pos := (st.corner_pos + 1) % 4 }
    else if k = .keyH then { st with show_help := !st.show_help }
    else st

/-- `OverlayWindow.keyPressEvent`: the `elif` chain over the key,
followed by the separate edit-mode action block that re-reads the
(possibly updated) mode and selection. -/
def keyPressEvent (env : Env) (k : Key) (st : OverlayState) :
    OverlayState :=
  let st1 := keyPressChain env k st
  if st1.capture_mode = .edit ∧ st1.selected_item_index ≠ -1 then
    if k = .keyDelete then deleteCurrentSelection env st1
    else if k = .keyR then (renameCurrentSelection env st1).1
    else st1
  else st1

/-- `OverlayWindow.keyReleaseEvent`: only Shift release is handled. -/
def keyReleaseEvent (k : Key) (st : OverlayState) : OverlayState :=
  if k = .shiftKey then { st with shift_pressed := false } else st

/-- One input or render event delivered to the overlay. -/
inductive Event where
  | mouseMove (pos : Pt)
  | mousePress (btn : MouseButton) (pos : Pt)
  | keyPress (k : Key)
  | keyRelease (k : Key)
  | tick

/-- Dispatch one event against the overlay state. A closed overlay
receives no further events; the render `tick` performs the
notification prune of `draw_notifications`. -/
def stepEvent (s : ℚ → ℚ) (env : Env) (ev : Event) (st : OverlayState) :
    OverlayState :=
  if st.closed then st
  else
    match ev with
    | .mouseMove pos => { st with cursor_pos := pos }
    | .mousePress btn pos => mousePressEvent s env btn pos st
    | .keyPress k => keyPressEvent env k st
    | .keyRelease k => keyReleaseEvent k st
    | .tick => { st with notifications := pruneNotifications env.now st.notifications }

/-- Overlay states reachable from `initState` by any sequence of
pointer, keyboard and render events, with arbitrary environment
responses. -/
inductive Reachable (s : ℚ → ℚ) : OverlayState → Prop where
  | init : Reachable s initState
  | step (env : Env) (ev : Event) {st : OverlayState} :
      Reachable s st → Reachable s (stepEvent s env ev st)

/-- The selection invariant: `selected_item_index` is `-1` or a valid
index into `session_items`, and is `-1` outside edit mode. -/
def SelInv (st : OverlayState) : Prop :=
  (st.selected_item_index = -1 ∨
    (0 ≤ st.selected_item_index ∧
      st.selected_item_index.toNat < st.session_items.length)) ∧
  (st.capture_mode ≠ .edit → st.selected_item_index = -1)

/-- C1 (counterexample): a `MeasurementItem` created with an empty name
and distance `2.7` (written `27/10`) is named `"Measurement 2px"` —
Python `int()` truncates — while the claimed `round(distance)` default
would be `"Measurement 3px"`. -/
theorem c1_counterexample :
    (MeasurementItem.make 0 0 2 1 (27 / 10) "" "t" false).name = "Measurement 2px" ∧
    specMeasurementName (27 / 10) = "Measurement 3px" ∧
    (MeasurementItem.make 0 0 2 1 (27 / 10) "" "t" false).name ≠
      specMeasurementName (27 / 10) := by
  have h : (27 / 10 : ℚ) = ⟨27, 10, by decide, by decide⟩ := by
    rw [Rat.mk'_eq_divInt, Rat.divInt_eq_div]; norm_num
  rw [h]; decide

/-- C1 (amended): for every `MeasurementItem` created with an empty
name argument, the default name is `"Measurement c!px"` where `c` is
`int(distance)`, the distance truncated toward zero — not rounded to
the nearest integer. -/
theorem c1_default_name (x1 y1 x2 y2 : ℤ) (d : ℚ) (ts : String) (aa : Bool) :
    (MeasurementItem.make x1 y1 x2 y2 d "" ts aa).name =
      "Measurement " ++ toString (pyInt d) ++ "px" := by
  simp [MeasurementItem.make]

/-- C2: the snap step of `finish_ruler` agrees with the specified
`snapAxis` rule for every anchor, raw end point and freeform flag, and
at the documented 10x ratio boundary `dx=100, dy=9` snaps horizontal
while `dx=100, dy=11` leaves the end point unchanged. -/
theorem c2_snapAxis :
    (∀ start endp freeform, snapAxis start endp freeform = snapAxisSpec start endp freeform) ∧
    snapAxis { x := 0, y := 0 } { x := 100, y := 9 } false = { x := 100, y := 0 } ∧
    snapAxis { x := 0, y := 0 } { x := 100, y := 11 } false = { x := 100, y := 11 } := by
  refine ⟨?_, by decide, by decide⟩
  intro start endp f
  cases f <;> simp [snapAxis, snapAxisSpec, mul_comm]

/-- C7: edit-mode Delete consults the boolean returned by the host's
remove-by-identity operation: on `False` the whole overlay state (in
particular the session list and the selection) is unchanged, and on
`True` the entry at the selected index is removed and the selection is
cleared to `-1`, never left dangling. -/
theorem c7_delete_checks_host (env : Env) (st : OverlayState)
    (hidx : st.selected_item_index.toNat < st.session_items.length) :
    (env.hostRemoveOk = false → deleteCurrentSelection env st = st) ∧
    (env.hostRemoveOk = true →
      (deleteCurrentSelection env st).selected_item_index = -1 ∧
      (deleteCurrentSelection env st).session_items =
        st.session_items.eraseIdx st.selected_item_index.toNat ∧
      (deleteCurrentSelection env st).session_items.length =
        st.session_items.length - 1) := by
  constructor
  · intro h
    simp [deleteCurrentSelection, h]
  · intro h
    simp [deleteCurrentSelection, h, List.length_eraseIdx, hidx]

/-- C7 (witness): a concrete run of `delete_current_selection` on a
one-item session with the host accepting. -/
theorem c7_delete_checks_host_witness :
    (deleteCurrentSelection
        { now := 0, timestamp := "t", hostRemoveOk := true, hostRenameOk := true,
          promptOk := true, promptText := "n" }
        { initState with
          capture_mode := .edit,
          session_items := [SessionItem.coord (CoordinateItem.make 5 6 "" "t")],
          selected_item_index := 0 }).selected_item_index = -1 :=
  ((c7_delete_checks_host _ _ (by decide)).2 rfl).1

/-- C10: a rename prompt that is confirmed with an empty text performs
nothing: the host rename operation is not invoked (second component
`false`), the state — session list, names, notifications — is exactly
unchanged, the same as an outright cancelled prompt. -/
theorem c10_rename_empty_text (env : Env) (st : OverlayState)
    (hok : env.promptOk = true) (htext : env.promptText = "") :
    renameCurrentSelection env st = (st, false) ∧
    renameCurrentSelection { env with promptOk := false } st = (st, false) := by
  constructor <;> simp [renameCurrentSelection, hok, htext]

/-- C10 (witness): the concrete empty-text confirmed prompt. -/
theorem c10_rename_empty_text_witness :
    renameCurrentSelection
        { now := 0, timestamp := "t", hostRemoveOk := true, hostRenameOk := true,
          promptOk := true, promptText := "" }
        initState = (initState, false) :=
  (c10_rename_empty_text _ initState rfl rfl).1

/-- C8: a pushed notification is stored with expiry `now + 2.0`; the
prune at a later instant keeps exactly the entries with
`expiry > now`, in insertion order (the kept list is a sublist of the
original), and pruning again at the same instant removes nothing
further. -/
theorem c8_notification_queue (now now2 : ℚ) (text : String) (q : List (String × ℚ)) :
    addNotification now text q = q ++ [(text, now + 2)] ∧
    (∀ e, e ∈ pruneNotifications now2 q ↔ e ∈ q ∧ now2 < e.2) ∧
    (pruneNotifications now2 q).Sublist q ∧
    pruneNotifications now2 (pruneNotifications now2 q) = pruneNotifications now2 q := by
  refine ⟨rfl, ?_, List.filter_sublist _, ?_⟩
  · intro e
    simp [pruneNotifications, List.mem_filter]
  · simp [pruneNotifications, List.filter_filter]

/-- Loop invariant of `select_nearest_item`: started at index `i` with
best distance `md` and best index `c`, the scan either rejects every
element (result `c`) or returns `i + k` for the first element `k`
achieving the minimum distance, that distance beating `md`. -/
theorem selectNearestAux_spec (s : ℚ → ℚ) (pos : Pt) :
    ∀ (l : List SessionItem) (i : ℤ) (md : ℚ) (c : ℤ),
      (selectNearestAux s pos l i md c = c ∧
        ∀ k, ∀ hk : k < l.length, ¬ itemDist s pos (l.get ⟨k, hk⟩) < md) ∨
      (∃ k, ∃ hk : k < l.length,
        selectNearestAux s pos l i md c = i + (k : ℤ) ∧
        itemDist s pos (l.get ⟨k, hk⟩) < md ∧
        (∀ j, ∀ hj : j < l.length,
          itemDist s pos (l.get ⟨k, hk⟩) ≤ itemDist s pos (l.get ⟨j, hj⟩)) ∧
        (∀ j, ∀ hj : j < k,
          itemDist s pos (l.get ⟨k, hk⟩) <
            itemDist s pos (l.get ⟨j, Nat.lt_trans hj hk⟩))) := by
  intro l
  induction l with
  | nil =>
    intro i md c
    exact Or.inl ⟨rfl, fun k hk => absurd hk (Nat.not_lt_zero k)⟩
  | cons item rest ih =>
    intro i md c
    by_cases h0 : itemDist s pos item < md
    · have hrw : selectNearestAux s pos (item :: rest) i md c =
          selectNearestAux s pos rest (i + 1) (itemDist s pos item) i := by
        simp [selectNearestAux, h0]
    -- the head becomes the current best
      rcases ih (i + 1) (itemDist s pos item) i with ⟨heq, hall⟩ |
        ⟨k, hk, heq, hlt, hmin, hstrict⟩
      · refine Or.inr ⟨0, Nat.succ_pos _, ?_, by simpa using h0, ?_, ?_⟩
        · rw [hrw, heq]; simp
        · intro j hj
          cases j with
          | zero => simp
          | succ j =>
            have hj' : j < rest.length := Nat.lt_of_succ_lt_succ hj
            have := hall j hj'
            simpa using le_of_not_lt this
        · intro j hj
          exact absurd hj (Nat.not_lt_zero j)
      · refine Or.inr ⟨k + 1, Nat.succ_lt_succ hk, ?_, ?_, ?_, ?_⟩
        · rw [hrw, heq]; push_cast; ring
        · calc itemDist s pos ((item :: rest).get ⟨k + 1, Nat.succ_lt_succ hk⟩)
              = itemDist s pos (rest.get ⟨k, hk⟩) := by simp
            _ < itemDist s pos item := hlt
            _ < md := h0
        · intro j hj
          cases j with
          | zero =>
            simpa using le_of_lt hlt
          | succ j =>
            have hj' : j < rest.length := Nat.lt_of_succ_lt_succ hj
            simpa using hmin j hj'
        · intro j hj
          cases j with
          | zero =>
            simpa using hlt
          | succ j =>
            have hj' : j < k := Nat.lt_of_succ_lt_succ hj
            simpa using hstrict j hj'
    · have hrw : selectNearestAux s pos (item :: rest) i md c =
          selectNearestAux s pos rest (i + 1) md c := by
        simp [selectNearestAux, h0]
      rcases ih (i + 1) md c with ⟨heq, hall⟩ | ⟨k, hk, heq, hlt, hmin, hstrict⟩
      · refine Or.inl ⟨by rw [hrw, heq], ?_⟩
        intro j hj
        cases j with
        | zero => simpa using h0
        | succ j =>
          have hj' : j < rest.length := Nat.lt_of_succ_lt_succ hj
          simpa using hall j hj'
      · refine Or.inr ⟨k + 1, Nat.succ_lt_succ hk, ?_, ?_, ?_, ?_⟩
        · rw [hrw, heq]; push_cast; ring
        · simpa using hlt
        · intro j hj
          cases j with
          | zero =>
            have : itemDist s pos (rest.get ⟨k, hk⟩) < itemDist s pos item :=
              lt_of_lt_of_le hlt (le_of_not_lt h0)
            simpa using le_of_lt this
          | succ j =>
            have hj' : j < rest.length := Nat.lt_of_succ_lt_succ hj
            simpa using hmin j hj'
        · intro j hj
          cases j with
          | zero =>
            simpa using lt_of_lt_of_le hlt (le_of_not_lt h0)
          | succ j =>
            have hj' : j < k := Nat.lt_of_succ_lt_succ hj
            simpa using hstrict j hj'

/-- C4: for every sqrt function, query point and session list, the hit
tester either returns `-1` with no item's distance strictly below the
20px threshold, or returns the index of an item strictly below the
threshold whose distance is minimal over the whole list and strictly
smaller than every earlier item's distance — ties go to the
first-encountered item. -/
theorem c4_select_nearest (s : ℚ → ℚ) (pos : Pt) (items : List SessionItem) :
    (selectNearestItem s pos items = -1 ∧
      ∀ k, ∀ hk : k < items.length, ¬ itemDist s pos (items.get ⟨k, hk⟩) < 20) ∨
    (∃ k, ∃ hk : k < items.length,
      selectNearestItem s pos items = (k : ℤ) ∧
      itemDist s pos (items.get ⟨k, hk⟩) < 20 ∧
      (∀ j, ∀ hj : j < items.length,
        itemDist s pos (items.get ⟨k, hk⟩) ≤ itemDist s pos (items.get ⟨j, hj⟩)) ∧
      (∀ j, ∀ hj : j < k,
        itemDist s pos (items.get ⟨k, hk⟩) <
          itemDist s pos (items.get ⟨j, Nat.lt_trans hj hk⟩))) := by
  rcases selectNearestAux_spec s pos items 0 20 (-1) with ⟨heq, hall⟩ |
    ⟨k, hk, heq, hlt, hmin, hstrict⟩
  · exact Or.inl ⟨heq, hall⟩
  · exact Or.inr ⟨k, hk, by simpa using heq, hlt, hmin, hstrict⟩

/-- C5 (counterexample): in the documented scenario the query point is
`(105,100)` and the CoordinateItem sits at `(100,100)`, so the squared
point distance the hit tester feeds to `sqrt` is `25`: the point
distance is `5.0`, not the claimed `≈7.07` (whose square is `49.9849`). -/
theorem c5_counterexample :
    dist2 { x := 105, y := 100 } { x := 100, y := 100 } = 25 ∧
    (5 : ℚ) ^ 2 = 25 ∧ ¬ (707 / 100 : ℚ) ^ 2 = 25 := by
  refine ⟨by norm_num [dist2], by norm_num, by norm_num⟩

/-- C5 (amended): for the query `(105,100)` against a CoordinateItem at
`(100,100)` and a MeasurementItem `(0,0)-(200,200)` with threshold 20,
the point distance is `5.0` (`sqrt 25`), the segment distance is
`≈3.54` (`sqrt 12.5`), and the hit tester returns the segment's index
`1` because its distance is smaller. The two hypotheses on the sqrt
function hold for the real square root: `sqrt 25 = 5` and
`sqrt 12.5 ≈ 3.54 < 5`. -/
theorem c5_segment_wins (s : ℚ → ℚ) (d0 : ℚ)
    (h25 : s 25 = 5) (hseg : s (25 / 2) < 5) :
    dist2 { x := 105, y := 100 } { x := 100, y := 100 } = 25 ∧
    segDist2 { x := 105, y := 100 } { x := 0, y := 0 } { x := 200, y := 200 } = 25 / 2 ∧
    selectNearestItem s { x := 105, y := 100 }
      [SessionItem.coord (CoordinateItem.make 100 100 "" "t1"),
        SessionItem.meas (MeasurementItem.make 0 0 200 200 d0 "" "t2" false)] = 1 := by
  have hT : segT { x := 105, y := 100 } { x := 0, y := 0 } { x := 200, y := 200 } = 41 / 80 := by
    rw [segT, segL2]
    norm_num
  have hS : segDist2 { x := 105, y := 100 } { x := 0, y := 0 } { x := 200, y := 200 } =
      25 / 2 := by
    rw [segDist2]
    rw [if_neg (by norm_num [segL2] : ¬ segL2 { x := 0, y := 0 } { x := 200, y := 200 } = (0 : ℤ))]
    rw [hT]
    rw [min_eq_right (by norm_num : (41 / 80 : ℚ) ≤ 1),
      max_eq_right (by norm_num : (0 : ℚ) ≤ 41 / 80)]
    norm_num
  have hd0 : itemDist s { x := 105, y := 100 }
      (SessionItem.coord (CoordinateItem.make 100 100 "" "t1")) = 5 := by
    simp only [itemDist, CoordinateItem.make]
    rw [show ((dist2 { x := 105, y := 100 } { x := 100, y := 100 } : ℤ) : ℚ) = 25 from by
      norm_num [dist2]]
    exact h25
  have hd1 : itemDist s { x := 105, y := 100 }
      (SessionItem.meas (MeasurementItem.make 0 0 200 200 d0 "" "t2" false)) = s (25 / 2) := by
    simp only [itemDist, MeasurementItem.make]
    rw [hS]
  refine ⟨by norm_num [dist2], hS, ?_⟩
  rw [selectNearestItem]
  simp only [selectNearestAux, hd0, hd1]
  rw [if_pos (by norm_num : (5 : ℚ) < 20), if_pos hseg]
  norm_num

/-- C5 (witness): the concrete scenario run with a sqrt stand-in
satisfying the two numeric facts (`fun q => q / 5` maps 25 to 5 and
12.5 to 2.5 < 5). -/
theorem c5_segment_wins_witness :
    selectNearestItem (fun q : ℚ => q / 5) { x := 105, y := 100 }
      [SessionItem.coord (CoordinateItem.make 100 100 "" "t1"),
        SessionItem.meas (MeasurementItem.make 0 0 200 200 0 "" "t2" false)] = 1 :=
  (c5_segment_wins (fun q : ℚ => q / 5) 0 (by norm_num) (by norm_num)).2.2

/-- Vanishing squared segment length means coincident endpoints. -/
theorem segL2_eq_zero_iff (a b : Pt) : segL2 a b = 0 ↔ a = b := by
  constructor
  · intro h
    rw [segL2] at h
    have hx2 : (a.x - b.x) ^ 2 = 0 := by
      nlinarith [sq_nonneg (a.x - b.x), sq_nonneg (a.y - b.y)]
    have hy2 : (a.y - b.y) ^ 2 = 0 := by
      nlinarith [sq_nonneg (a.x - b.x), sq_nonneg (a.y - b.y)]
    have hx : a.x = b.x := by
      have h3 := sq_eq_zero_iff.mp hx2
      omega
    have hy : a.y = b.y := by
      have h3 := sq_eq_zero_iff.mp hy2
      omega
    obtain ⟨ax, ay⟩ := a
    obtain ⟨bx, b2⟩ := b
    simp_all
  · intro h
    subst h
    simp [segL2]

/-- C6: the segment-distance computation clamps the projection
parameter to `[0,1]`; a degenerate segment (`a = b`) yields the plain
point distance to `a`; and when the raw projection parameter falls at
or outside either end of `[0,1]`, the computed distance equals the
distance to the endpoint on that side, which is then the nearer
endpoint. `s` stands for `math.sqrt` and only its monotonicity is
assumed. -/
theorem c6_point_to_segment (s : ℚ → ℚ) (hs : Monotone s) (p a b : Pt) :
    (0 ≤ max 0 (min 1 (segT p a b)) ∧ max 0 (min 1 (segT p a b)) ≤ 1) ∧
    (a = b → s (segDist2 p a b) = s (((dist2 p a : ℤ) : ℚ))) ∧
    (segT p a b ≤ 0 →
      s (segDist2 p a b) = s (((dist2 p a : ℤ) : ℚ)) ∧
      s (((dist2 p a : ℤ) : ℚ)) ≤ s (((dist2 p b : ℤ) : ℚ))) ∧
    (1 ≤ segT p a b →
      s (segDist2 p a b) = s (((dist2 p b : ℤ) : ℚ)) ∧
      s (((dist2 p b : ℤ) : ℚ)) ≤ s (((dist2 p a : ℤ) : ℚ))) := by
  refine ⟨⟨le_max_left 0 _, max_le (by norm_num) (min_le_left 1 _)⟩, ?_, ?_, ?_⟩
  · intro hab
    rw [segDist2, if_pos ((segL2_eq_zero_iff a b).mpr hab)]
  · intro ht
    by_cases hL0 : segL2 a b = 0
    · have hab := (segL2_eq_zero_iff a b).mp hL0
      subst hab
      exact ⟨by rw [segDist2, if_pos hL0], le_refl _⟩
    · have hLnn : (0 : ℤ) ≤ segL2 a b := by
        rw [segL2]
        positivity
      have hLpos : (0 : ℚ) < ((segL2 a b : ℤ) : ℚ) := by
        exact_mod_cast lt_of_le_of_ne hLnn (Ne.symm hL0)
      have hmax : max 0 (min 1 (segT p a b)) = 0 := by
        rw [min_eq_right (le_trans ht zero_le_one)]
        exact max_eq_left ht
      constructor
      · congr 1
        simp only [segDist2, if_neg hL0, hmax]
        push_cast [dist2]
        ring
      · apply hs
        have hdot : (((p.x - a.x) * (b.x - a.x) + (p.y - a.y) * (b.y - a.y) : ℤ) : ℚ) ≤ 0 := by
          by_contra hpos
          push_neg at hpos
          have h4 : 0 < segT p a b := by
            rw [segT]
            exact div_pos hpos hLpos
          linarith
        have hdotZ : ((p.x - a.x) * (b.x - a.x) + (p.y - a.y) * (b.y - a.y) : ℤ) ≤ 0 := by
          exact_mod_cast hdot
        have hgoal : dist2 p a ≤ dist2 p b := by
          rw [dist2, dist2]
          nlinarith [hLnn, hdotZ, sq_nonneg (a.x - b.x), sq_nonneg (a.y - b.y)]
        exact_mod_cast hgoal
  · intro ht
    by_cases hL0 : segL2 a b = 0
    · exfalso
      have h0 : segT p a b = 0 := by
        rw [segT, hL0]
        norm_num
      rw [h0] at ht
      linarith
    · have hLnn : (0 : ℤ) ≤ segL2 a b := by
        rw [segL2]
        positivity
      have hLpos : (0 : ℚ) < ((segL2 a b : ℤ) : ℚ) := by
        exact_mod_cast lt_of_le_of_ne hLnn (Ne.symm hL0)
      have hmax : max 0 (min 1 (segT p a b)) = 1 := by
        rw [min_eq_left ht]
        exact max_eq_right zero_le_one
      constructor
      · congr 1
        simp only [segDist2, if_neg hL0, hmax]
        push_cast [dist2]
        ring
      · apply hs
        have hdot : ((segL2 a b : ℤ) : ℚ) ≤
            (((p.x - a.x) * (b.x - a.x) + (p.y - a.y) * (b.y - a.y) : ℤ) : ℚ) := by
          rw [segT] at ht
          have h4 := (le_div_iff₀ hLpos).mp ht
          linarith [h4]
        have hdotZ : segL2 a b ≤ ((p.x - a.x) * (b.x - a.x) + (p.y - a.y) * (b.y - a.y) : ℤ) := by
          exact_mod_cast hdot
        have hgoal : dist2 p b ≤ dist2 p a := by
          rw [dist2, dist2]
          rw [segL2] at hdotZ
          nlinarith [hdotZ]
        exact_mod_cast hgoal

/-- C6 (witness): the degenerate segment `(0,0)-(0,0)` queried from
`(3,4)` yields the point distance, instantiated at the identity (a
monotone sqrt stand-in). -/
theorem c6_point_to_segment_witness :
    Monotone (fun q : ℚ => q) ∧
    segDist2 { x := 3, y := 4 } { x := 0, y := 0 } { x := 0, y := 0 } =
      ((dist2 { x := 3, y := 4 } { x := 0, y := 0 } : ℤ) : ℚ) :=
  ⟨monotone_id, (c6_point_to_segment (fun q : ℚ => q) monotone_id _ _ _).2.1 rfl⟩

/-- C3: from normal mode, a right-click then a left-click always
returns to normal mode with the ruler anchor cleared and exactly one
new item — a MeasurementItem — appended to the session list; and in
the documented scenario (anchor `(100,100)`, raw end `(250,103)`,
shift up, `sqrt 22500 = 150`) the created measurement runs from
`(100,100)` to the snapped endpoint `(250,100)` with distance `150.0`
and `auto_aligned = true`. -/
theorem c3_right_then_left (s : ℚ → ℚ) (env1 env2 : Env) (st : OverlayState)
    (p q : Pt) (hclosed : st.closed = false) (hmode : st.capture_mode = .normal) :
    ((stepEvent s env2 (.mousePress .left q)
        (stepEvent s env1 (.mousePress .right p) st)).capture_mode = .normal ∧
      (stepEvent s env2 (.mousePress .left q)
        (stepEvent s env1 (.mousePress .right p) st)).ruler_start = none ∧
      ∃ m : MeasurementItem,
        (stepEvent s env2 (.mousePress .left q)
          (stepEvent s env1 (.mousePress .right p) st)).session_items =
          st.session_items ++ [SessionItem.meas m]) ∧
    (st.shift_pressed = false → s 22500 = 150 →
      ∃ m : MeasurementItem,
        (stepEvent s env2 (.mousePress .left { x := 250, y := 103 })
          (stepEvent s env1 (.mousePress .right { x := 100, y := 100 }) st)).session_items =
          st.session_items ++ [SessionItem.meas m] ∧
        m.x1 = 100 ∧ m.y1 = 100 ∧ m.x2 = 250 ∧ m.y2 = 100 ∧
        m.distance = 150 ∧ m.auto_aligned = true) := by
  have hstep1 : ∀ pp : Pt, stepEvent s env1 (.mousePress .right pp) st =
      { st with
        capture_mode := .ruler,
        ruler_start := some pp,
        notifications := addNotification env1.now "Ruler Mode: Click to end" st.notifications } := by
    intro pp
    simp [stepEvent, hclosed, mousePressEvent, hmode]
  have hstep2 : ∀ (pp qq : Pt),
      stepEvent s env2 (.mousePress .left qq)
        (stepEvent s env1 (.mousePress .right pp) st) =
      finishRuler s env2 qq
        { st with
          capture_mode := .ruler,
          ruler_start := some pp,
          notifications := addNotification env1.now "Ruler Mode: Click to end" st.notifications } := by
    intro pp qq
    rw [hstep1]
    simp [stepEvent, hclosed, mousePressEvent]
  constructor
  · rw [hstep2]
    refine ⟨by simp [finishRuler], by simp [finishRuler],
      MeasurementItem.make p.x p.y (snapAxis p q st.shift_pressed).x
        (snapAxis p q st.shift_pressed).y
        (s (((dist2 (snapAxis p q st.shift_pressed) p : ℤ) : ℚ))) "" env2.timestamp
        (decide (snapAxis p q st.shift_pressed ≠ q)), ?_⟩
    simp [finishRuler]
  · intro hshift hsqrt
    rw [hstep2]
    have hsnap : snapAxis { x := 100, y := 100 } { x := 250, y := 103 } false =
        { x := 250, y := 100 } := by decide
    have hdd : ((dist2 { x := 250, y := 100 } { x := 100, y := 100 } : ℤ) : ℚ) = 22500 := by
      norm_num [dist2]
    refine ⟨MeasurementItem.make 100 100 250 100 150 "" env2.timestamp true, ?_,
      by simp [MeasurementItem.make], by simp [MeasurementItem.make],
      by simp [MeasurementItem.make], by simp [MeasurementItem.make],
      by simp [MeasurementItem.make], by simp [MeasurementItem.make]⟩
    simp only [finishRuler, hshift, hsnap, hdd, hsqrt]
    simp [hshift, hsnap, hdd, hsqrt]

/-- C3 (witness): the documented scenario run from the initial state,
with `fun q => q / 150` as a sqrt stand-in mapping 22500 to 150. -/
theorem c3_right_then_left_witness :
    ∃ m : MeasurementItem,
      (stepEvent (fun q : ℚ => q / 150)
          { now := 0, timestamp := "t2", hostRemoveOk := true, hostRenameOk := true,
            promptOk := true, promptText := "" }
          (.mousePress .left { x := 250, y := 103 })
          (stepEvent (fun q : ℚ => q / 150)
            { now := 0, timestamp := "t1", hostRemoveOk := true, hostRenameOk := true,
              promptOk := true, promptText := "" }
            (.mousePress .right { x := 100, y := 100 }) initState)).session_items =
        initState.session_items ++ [SessionItem.meas m] ∧
      m.x1 = 100 ∧ m.y1 = 100 ∧ m.x2 = 250 ∧ m.y2 = 100 ∧
      m.distance = 150 ∧ m.auto_aligned = true :=
  (c3_right_then_left (fun q : ℚ => q / 150) _ _ initState
    { x := 0, y := 0 } { x := 0, y := 0 } rfl rfl).2 rfl (by norm_num)

/-- The hit tester returns `-1` or a valid index of the scanned list. -/
theorem selectNearestItem_range (s : ℚ → ℚ) (pos : Pt) (items : List SessionItem) :
    selectNearestItem s pos items = -1 ∨
      (0 ≤ selectNearestItem s pos items ∧
        (selectNearestItem s pos items).toNat < items.length) := by
  rcases selectNearestAux_spec s pos items 0 20 (-1) with ⟨heq, _⟩ |
    ⟨k, hk, heq, _, _, _⟩
  · exact Or.inl heq
  · refine Or.inr ⟨?_, ?_⟩ <;> rw [selectNearestItem, heq] <;> omega

/-- Renaming in place preserves the session list length. -/
theorem renameAt_length :
    ∀ (l : List SessionItem) (i : ℕ) (nm : String), (renameAt l i nm).length = l.length := by
  intro l
  induction l with
  | nil =>
    intro i nm
    rfl
  | cons a rest ih =>
    intro i nm
    cases i with
    | zero => simp [renameAt]
    | succ n => simp [renameAt, ih]

/-- Deletion preserves the selection invariant. -/
theorem selInv_delete (env : Env) (st : OverlayState) (h : SelInv st) :
    SelInv (deleteCurrentSelection env st) := by
  rw [deleteCurrentSelection]
  by_cases hok : env.hostRemoveOk = true
  · simp only [hok, if_true]
    exact ⟨Or.inl rfl, fun _ => rfl⟩
  · simp only [Bool.not_eq_true] at hok
    simp only [hok, Bool.false_eq_true, if_false]
    exact h

/-- Renaming preserves the selection invariant. -/
theorem selInv_rename (env : Env) (st : OverlayState) (h : SelInv st) :
    SelInv (renameCurrentSelection env st).1 := by
  rw [renameCurrentSelection]
  by_cases hc : env.promptOk = true ∧ env.promptText ≠ ""
  · simp only [if_pos hc]
    refine ⟨?_, h.2⟩
    rcases h.1 with h1 | ⟨h2, h3⟩
    · exact Or.inl h1
    · refine Or.inr ⟨h2, ?_⟩
      by_cases hr : env.hostRenameOk = true
      · simpa [hr, renameAt_length] using h3
      · simp only [Bool.not_eq_true] at hr
        simpa [hr] using h3
  · simp only [if_neg hc]
    exact h

/-- The key `elif` chain preserves the selection invariant. -/
theorem selInv_keyChain (env : Env) (k : Key) (st : OverlayState) (h : SelInv st) :
    SelInv (keyPressChain env k st) := by
  rw [keyPressChain]
  split
  · exact h
  split
  · split
    · exact ⟨Or.inl rfl, fun _ => rfl⟩
    · exact ⟨h.1, fun hne => absurd rfl hne⟩
  split
  · split
    · rename_i hmr
      have hsel := h.2 (by rw [hmr]; decide)
      exact ⟨Or.inl hsel, fun _ => hsel⟩
    · split
      · exact ⟨Or.inl rfl, fun _ => rfl⟩
      · rename_i hne
        have hsel := h.2 hne
        exact ⟨Or.inl hsel, fun _ => hsel⟩
  split
  · exact h
  split
  · exact h
  · exact h

/-- `keyPressEvent` preserves the selection invariant. -/
theorem selInv_keyPress (env : Env) (k : Key) (st : OverlayState) (h : SelInv st) :
    SelInv (keyPressEvent env k st) := by
  have h1 := selInv_keyChain env k st h
  simp only [keyPressEvent]
  split
  · split
    · exact selInv_delete env _ h1
    · split
      · exact selInv_rename env _ h1
      · exact h1
  · exact h1

/-- `finish_ruler` preserves the selection invariant outside edit
mode. -/
theorem selInv_finishRuler (s : ℚ → ℚ) (env : Env) (endPos : Pt) (st : OverlayState)
    (h : SelInv st) (hm : st.capture_mode ≠ .edit) :
    SelInv (finishRuler s env endPos st) := by
  rw [finishRuler]
  rcases hrs : st.ruler_start with _ | start
  · exact h
  · have hsel := h.2 hm
    exact ⟨Or.inl hsel, fun _ => hsel⟩

/-- `mousePressEvent` preserves the selection invariant. -/
theorem selInv_mousePress (s : ℚ → ℚ) (env : Env) (btn : MouseButton) (pos : Pt)
    (st : OverlayState) (h : SelInv st) :
    SelInv (mousePressEvent s env btn pos st) := by
  rw [mousePressEvent]
  split
  · rename_i hm
    split
    · rcases selectNearestItem_range s pos st.session_items with hr | ⟨h0, hlen⟩
      · exact ⟨Or.inl hr, fun hne => absurd hm hne⟩
      · exact ⟨Or.inr ⟨h0, hlen⟩, fun hne => absurd hm hne⟩
    · exact h
  · rename_i hm
    split
    · split
      · have hsel := h.2 hm
        exact ⟨Or.inl hsel, fun _ => hsel⟩
      · split
        · exact selInv_finishRuler s env pos st h hm
        · exact h
    · split
      · split
        · have hsel := h.2 hm
          exact ⟨Or.inl hsel, fun _ => hsel⟩
        · split
          · exact selInv_finishRuler s env pos st h hm
          · exact h
      · exact h

/-- Every single event preserves the selection invariant. -/
theorem selInv_step (s : ℚ → ℚ) (env : Env) (ev : Event) (st : OverlayState)
    (h : SelInv st) : SelInv (stepEvent s env ev st) := by
  rw [stepEvent.eq_def]
  split
  · exact h
  · cases ev with
    | mouseMove pos => exact h
    | mousePress btn pos => exact selInv_mousePress s env btn pos st h
    | keyPress k => exact selInv_keyPress env k st h
    | keyRelease k =>
      simp only [keyReleaseEvent]
      split
      · exact h
      · exact h
    | tick => exact h

/-- C9: in every overlay state reachable from the initial state by
pointer, keyboard and render events, `selected_item_index` is either
`-1` or a valid index into the session item list, and it is `-1`
whenever the capture mode is not edit. -/
theorem c9_selection_invariant (s : ℚ → ℚ) (st : OverlayState)
    (h : Reachable s st) : SelInv st := by
  induction h with
  | init => exact ⟨Or.inl rfl, fun _ => rfl⟩
  | step env ev hr ih => exact selInv_step s env ev _ ih

/-- C9 (witness): the invariant at the (trivially reachable) initial
state. -/
theorem c9_selection_invariant_witness :
    Reachable (fun q : ℚ => q) initState ∧ SelInv initState :=
  ⟨Reachable.init, c9_selection_invariant (fun q : ℚ => q) initState Reachable.init⟩
